import Mathlib

/-!
Shallow embedding of the auction web application (src/app.py).

The application keeps two database tables, `team` and `player`, and four
state-changing request handlers: `sell_player`, `unsold_player`,
`undo_player` and `delete_player`, plus a presentation helper
`format_inr`.  Monetary columns are SQLAlchemy `Float` columns; they are
modelled here with exact rationals (`ℚ`).  Rows are modelled as
structures, a table as a list of rows, and a handler as a function from
the database state (plus the parsed request parameters) to a response.
SQLAlchemy loads a row object and mutates it in place; since lookups
(`query.get`, `filter_by(...).first()`) return the first matching row,
in-place mutation is modelled by updating the first matching list entry.
-/

namespace AuctionApp

/-- A Python value passed to the template filter `format_inr`: either a
value on which `float(...)` succeeds (carrying its numeric value), or a
value on which `float(...)` raises `ValueError`/`TypeError` (carrying its
display form).  The filter returns the latter kind unchanged. -/
inductive PyVal where
  | num (q : ℚ)
  | str (s : String)
deriving DecidableEq

/-- Rounding to the nearest integer, ties to even: the rounding used by
Python `format` when printing a float with a fixed number of decimals. -/
def rndHalfEven (q : ℚ) : ℤ :=
  let f : ℤ := ⌊q⌋
  let r : ℚ := q - (f : ℚ)
  if r < 1 / 2 then f
  else if 1 / 2 < r then f + 1
  else if f % 2 = 0 then f else f + 1

/-- Two-digit zero-padded decimal rendering of a natural number below 100. -/
def pad2 (n : ℕ) : String :=
  if n < 10 then "0" ++ toString n else toString n

/-- Python `"{0:.2f}".format(q)`: fixed-point rendering with two decimal
places. -/
def fmt2 (q : ℚ) : String :=
  let m : ℤ := rndHalfEven (q * 100)
  (if m < 0 then "-" else "") ++ toString (m.natAbs / 100) ++ "." ++ pad2 (m.natAbs % 100)

/-- The integer-part string `str(value).split(".")[0]` of a Python float:
sign followed by the digits of the truncation toward zero (`"-0"` for
values in `(-1, 0)`, as in Python). -/
def intPartStr (q : ℚ) : String :=
  if q < 0 then "-" ++ toString (Int.natAbs ⌈q⌉) else toString (Int.natAbs ⌊q⌋)

/-- Effective index of a Python slice bound `i` into a sequence of length
`n` (negative indices count from the right, both ends clamped). -/
def pySliceIdx (n : ℕ) (i : ℤ) : ℕ :=
  if i < 0 then n - min n i.natAbs else min n i.toNat

/-- Python slice `s[a:b]`. -/
def pySlice (s : List Char) (a b : ℤ) : List Char :=
  (s.drop (pySliceIdx s.length a)).take (pySliceIdx s.length b - pySliceIdx s.length a)

/-- The list comprehension `[s[x-2:x] for x in range(-3, -len(s), -2)]`
from `format_inr`: `range(-3, -len(s), -2)` has `(len(s) - 2) / 2`
elements, the k-th being `-3 - 2*k`. -/
def pyGroupParts (s : List Char) : List (List Char) :=
  (List.range ((s.length - 2) / 2)).map
    (fun k => pySlice s (-3 - 2 * (k : ℤ) - 2) (-3 - 2 * (k : ℤ)))

/-- The Indian-style digit grouping of `format_inr`:
`",".join(parts[::-1] + [s[-3:]])`. -/
def pyGroup (s : List Char) : String :=
  String.intercalate ","
    (((pyGroupParts s).reverse ++ [s.drop (pySliceIdx s.length (-3))]).map List.asString)

/-- The body of `format_inr` on a numeric value (src/app.py lines 50-62). -/
def format_inr_num (v : ℚ) : String :=
  if 10000000 ≤ v then "INR " ++ fmt2 (v / 10000000) ++ " Cr"
  else if 100000 ≤ v then "INR " ++ fmt2 (v / 100000) ++ " L"
  else "INR " ++ pyGroup (intPartStr v).data

/-- The template filter `format_inr` (src/app.py lines 43-62): numeric
values are rendered in crore / lakh / grouped-integer bands; values on
which `float(...)` raises are returned unchanged. -/
def format_inr : PyVal → PyVal
  | PyVal.num v => PyVal.str (format_inr_num v)
  | PyVal.str s => PyVal.str s

/-- A row of the `team` table. -/
structure Team where
  id : ℕ
  name : String
  budget : ℚ
deriving DecidableEq

/-- A row of the `player` table. -/
structure Player where
  id : ℕ
  name : String
  role : String
  set_name : String
  base_price : String
  status : String
  price : Option ℚ
  credits : ℚ
  team_id : Option ℕ
deriving DecidableEq

/-- The database state: the two tables. -/
structure DB where
  teams : List Team
  players : List Player
deriving DecidableEq

/-- Outcome of a request handler: `notFound` is the 404 raised by
`get_or_404`, `error` is an uncaught exception (HTTP 500, nothing
committed), and `ok` carries the committed database state together with
the flashed `(message, category)` pairs. -/
inductive HResp where
  | notFound
  | error
  | ok (db : DB) (msgs : List (String × String))
deriving DecidableEq

/-- Update the first element satisfying `p` (SQLAlchemy in-place mutation
of the row object returned by a first-match query). -/
def updFirst (p : α → Bool) (f : α → α) : List α → List α
  | [] => []
  | x :: xs => if p x then f x :: xs else x :: updFirst p f xs

/-- Python truthiness of an optional integer column value: `None` and `0`
are falsy. -/
def truthy : Option ℕ → Bool
  | none => false
  | some n => n != 0

/-- Handler `sell_player` (src/app.py lines 102-130), with the form
fields already extracted and the price already parsed by `float(...)`. -/
def sell_player (db : DB) (pid : ℕ) (team_name : String) (price : ℚ) : HResp :=
  match db.players.find? (fun pl => pl.id == pid) with
  | none => HResp.notFound
  | some player =>
    if player.status != "Available" then
      HResp.ok db [("Player already processed.", "danger")]
    else
      match db.teams.find? (fun t => t.name == team_name) with
      | none => HResp.ok db [("Invalid team selected.", "danger")]
      | some team =>
        if team.budget < price then
          HResp.ok db [("Not enough budget.", "danger")]
        else
          HResp.ok
            { teams := updFirst (fun t => t.name == team_name)
                (fun t => { t with budget := t.budget - price }) db.teams,
              players := updFirst (fun pl => pl.id == pid)
                (fun pl => { pl with
                              status := "Sold"
                              team_id := some team.id
                              price := some price }) db.players }
            [(player.name ++ " sold to " ++ team.name ++ " for " ++ format_inr_num price,
              "success")]

/-- Handler `unsold_player` (src/app.py lines 132-139). -/
def unsold_player (db : DB) (pid : ℕ) : HResp :=
  match db.players.find? (fun pl => pl.id == pid) with
  | none => HResp.notFound
  | some player =>
    HResp.ok
      { teams := db.teams,
        players := updFirst (fun pl => pl.id == pid)
          (fun pl => { pl with status := "Unsold" }) db.players }
      [(player.name ++ " marked as Unsold.", "warning")]

/-- Handler `undo_player` (src/app.py lines 141-163).  When the player is
`Sold` with a truthy `team_id` and the team row exists but `price` is
`NULL`, the Python line `team.budget += player.price` raises `TypeError`
before any commit, modelled by `HResp.error`. -/
def undo_player (db : DB) (pid : ℕ) : HResp :=
  match db.players.find? (fun pl => pl.id == pid) with
  | none => HResp.notFound
  | some player =>
    let players2 := updFirst (fun pl => pl.id == pid)
      (fun pl => { pl with
                    status := "Available"
                    team_id := none
                    price := none })
      db.players
    if player.status == "Sold" && truthy player.team_id then
      let tid := player.team_id.getD 0
      match db.teams.find? (fun t => t.id == tid) with
      | some team =>
        match player.price with
        | none => HResp.error
        | some pr =>
          HResp.ok
            { teams := updFirst (fun t => t.id == tid)
                (fun t => { t with budget := t.budget + pr }) db.teams,
              players := players2 }
            [("Undid sale of " ++ player.name ++ ". " ++ format_inr_num pr ++
              " refunded to " ++ team.name ++ ".", "info")]
      | none => HResp.ok { teams := db.teams, players := players2 } []
    else if player.status == "Unsold" then
      HResp.ok { teams := db.teams, players := players2 }
        [("Undid \x27Unsold\x27 status of " ++ player.name ++ ".", "info")]
    else
      HResp.ok db [("Player is already Available.", "warning")]

/-- Handler `delete_player` (src/app.py lines 165-180).  As in
`undo_player`, a `Sold` player with an existing team but `NULL` price
makes `team.budget += player.price` raise, modelled by `HResp.error`. -/
def delete_player (db : DB) (pid : ℕ) : HResp :=
  match db.players.find? (fun pl => pl.id == pid) with
  | none => HResp.notFound
  | some player =>
    let remaining := db.players.eraseP (fun pl => pl.id == pid)
    let byeMsg : String × String :=
      ("Player " ++ player.name ++ " has been removed from the auction pool.", "success")
    if player.status == "Sold" && truthy player.team_id then
      let tid := player.team_id.getD 0
      match db.teams.find? (fun t => t.id == tid) with
      | some team =>
        match player.price with
        | none => HResp.error
        | some pr =>
          HResp.ok
            { teams := updFirst (fun t => t.id == tid)
                (fun t => { t with budget := t.budget + pr }) db.teams,
              players := remaining }
            [("Refunded " ++ format_inr_num pr ++ " to " ++ team.name ++
              " for removing " ++ player.name ++ ".", "info"), byeMsg]
      | none => HResp.ok { teams := db.teams, players := remaining } [byeMsg]
    else
      HResp.ok { teams := db.teams, players := remaining } [byeMsg]

/-- The data-model invariant of spec section 3: the team reference of a player
is set exactly when its status is `Sold`. -/
def statusTeamInv (db : DB) : Bool :=
  db.players.all (fun pl => pl.team_id.isSome == (pl.status == "Sold"))

unseal Rat.sub Rat.add Rat.mul Rat.inv

/-- One of the eight seeded teams, at its initial budget. -/
def sampleTeam : Team := { id := 1, name := "Mumbai Indians (MI)", budget := 800000000 }

/-- A freshly seeded player: status `Available`, default price `0.0`, no
team reference. -/
def samplePlayer : Player :=
  { id := 1
    name := "Virat Kohli"
    role := "Batsman"
    set_name := "Marquee"
    base_price := "2.00 Crore"
    status := "Available"
    price := some 0
    credits := 10
    team_id := none }

/-- A single-team, single-player database with the player available. -/
def sampleDB : DB := { teams := [sampleTeam], players := [samplePlayer] }

/-- The sample team after spending 15,000,000. -/
def soldTeam : Team := { id := 1, name := "Mumbai Indians (MI)", budget := 785000000 }

/-- The sample player after being sold to team 1 for 15,000,000. -/
def soldPlayer : Player :=
  { samplePlayer with
     status := "Sold"
     team_id := some 1
     price := some 15000000 }

/-- The database after selling the sample player to the sample team for
15,000,000. -/
def soldDB : DB := { teams := [soldTeam], players := [soldPlayer] }

/-- A `Sold` player with a dangling team reference: `team_id` points at a
team row that does not exist in `danglingDB`. -/
def danglingPlayer : Player :=
  { samplePlayer with
     status := "Sold"
     team_id := some 7
     price := some 15000000 }

/-- A database whose only player is `Sold` with a dangling team
reference. -/
def danglingDB : DB := { teams := [sampleTeam], players := [danglingPlayer] }

/-- A `Sold` player whose `team_id` column is unset. -/
def soldNoTeamPlayer : Player :=
  { samplePlayer with
     status := "Sold"
     team_id := none
     price := some 15000000 }

/-- A database whose only player is `Sold` but with `team_id` unset. -/
def soldNoTeamDB : DB := { teams := [sampleTeam], players := [soldNoTeamPlayer] }

theorem find?_split {α : Type} {p : α → Bool} {l : List α} {a : α}
    (h : l.find? p = some a) :
    ∃ l₁ l₂, l = l₁ ++ a :: l₂ ∧ (∀ x ∈ l₁, p x = false) ∧ p a = true := by
  induction l with
  | nil => simp at h
  | cons y ys ih =>
    cases hy : p y with
    | true =>
      rw [List.find?_cons_of_pos _ hy, Option.some_inj] at h
      exact ⟨[], ys, by simp [h], by simp, h ▸ hy⟩
    | false =>
      rw [List.find?_cons_of_neg _ (by simp [hy])] at h
      obtain ⟨l₁, l₂, hl, hno, hpa⟩ := ih h
      exact ⟨y :: l₁, l₂, by simp [hl], by simpa [hy] using hno, hpa⟩

theorem find?_append_of_forall {α : Type} {p : α → Bool} {l₁ : List α} (a : α)
    (l₂ : List α) (hno : ∀ x ∈ l₁, p x = false) (ha : p a = true) :
    (l₁ ++ a :: l₂).find? p = some a := by
  induction l₁ with
  | nil =>
    rw [List.nil_append]
    exact List.find?_cons_of_pos _ ha
  | cons y ys ih =>
    have hy : p y = false := hno y (by simp)
    rw [List.cons_append, List.find?_cons_of_neg _ (by simp [hy])]
    exact ih (fun x hx => hno x (by simp [hx]))

theorem updFirst_append_of_forall {α : Type} {p : α → Bool} (f : α → α) {l₁ : List α}
    (a : α) (l₂ : List α) (hno : ∀ x ∈ l₁, p x = false) (ha : p a = true) :
    updFirst p f (l₁ ++ a :: l₂) = l₁ ++ f a :: l₂ := by
  induction l₁ with
  | nil => simp [updFirst, ha]
  | cons y ys ih =>
    have hy : p y = false := hno y (by simp)
    simpa [updFirst, hy] using ih (fun x hx => hno x (by simp [hx]))

theorem find?_updFirst {α : Type} {p : α → Bool} {f : α → α} {l : List α} {a : α}
    (h : l.find? p = some a) (hf : p (f a) = true) :
    (updFirst p f l).find? p = some (f a) := by
  obtain ⟨l₁, l₂, hl, hno, hpa⟩ := find?_split h
  subst hl
  rw [updFirst_append_of_forall f a l₂ hno hpa]
  exact find?_append_of_forall (f a) l₂ hno hf

theorem mem_updFirst {α : Type} {p : α → Bool} {f : α → α} {x : α} :
    ∀ {l : List α}, x ∈ updFirst p f l → x ∈ l ∨ ∃ y, y ∈ l ∧ p y = true ∧ x = f y := by
  intro l
  induction l with
  | nil => simp [updFirst]
  | cons y ys ih =>
    intro hx
    cases hy : p y with
    | true =>
      simp only [updFirst, hy, if_true, List.mem_cons] at hx
      rcases hx with hx | hx
      · exact Or.inr ⟨y, by simp, hy, hx⟩
      · exact Or.inl (by simp [hx])
    | false =>
      simp only [updFirst, hy, Bool.false_eq_true, if_false, List.mem_cons] at hx
      rcases hx with hx | hx
      · exact Or.inl (by simp [hx])
      · rcases ih hx with h | ⟨z, hz, hpz, hxz⟩
        · exact Or.inl (by simp [h])
        · exact Or.inr ⟨z, by simp [hz], hpz, hxz⟩

theorem sell_success_aux {db : DB} {pid : ℕ} {n : String} {p : ℚ} {player : Player}
    {team : Team}
    (hpl : db.players.find? (fun pl => pl.id == pid) = some player)
    (hst : player.status = "Available")
    (htm : db.teams.find? (fun t => t.name == n) = some team)
    (hb : ¬ team.budget < p) :
    sell_player db pid n p = HResp.ok
      { teams := updFirst (fun t => t.name == n)
          (fun t => { t with budget := t.budget - p }) db.teams
        players := updFirst (fun pl => pl.id == pid)
          (fun pl => { pl with
                        status := "Sold"
                        team_id := some team.id
                        price := some p }) db.players }
      [(player.name ++ " sold to " ++ team.name ++ " for " ++ format_inr_num p,
        "success")] := by
  simp only [sell_player, hpl, htm, hst]
  simp [hb]

/-- C1: a sell request on an existing `Available` player, naming an
existing team whose budget covers the price, succeeds; afterwards that
budget of that team is its pre-sell value minus the price and the player is
`Sold`, referencing that team, at that price. -/
theorem sell_success_post {db : DB} {pid : ℕ} {n : String} {p : ℚ} {player : Player}
    {team : Team}
    (hpl : db.players.find? (fun pl => pl.id == pid) = some player)
    (hst : player.status = "Available")
    (htm : db.teams.find? (fun t => t.name == n) = some team)
    (hb : p ≤ team.budget) :
    ∃ db2 msgs, sell_player db pid n p = HResp.ok db2 msgs ∧
      db2.teams.find? (fun t => t.name == n) =
        some { team with budget := team.budget - p } ∧
      db2.players.find? (fun pl => pl.id == pid) =
        some { player with
                status := "Sold"
                team_id := some team.id
                price := some p } ∧
      msgs = [(player.name ++ " sold to " ++ team.name ++ " for " ++ format_inr_num p,
        "success")] := by
  refine ⟨_, _, sell_success_aux hpl hst htm (not_lt.mpr hb), ?_, ?_, rfl⟩
  · exact find?_updFirst htm (by simpa using List.find?_some htm)
  · exact find?_updFirst hpl (by simpa using List.find?_some hpl)

theorem sell_success_post_check :
    sampleDB.players.find? (fun pl => pl.id == 1) = some samplePlayer ∧
    samplePlayer.status = "Available" ∧
    sampleDB.teams.find? (fun t => t.name == "Mumbai Indians (MI)") = some sampleTeam ∧
    (15000000 : ℚ) ≤ sampleTeam.budget ∧
    (∃ db2 msgs, sell_player sampleDB 1 "Mumbai Indians (MI)" 15000000 = HResp.ok db2 msgs ∧
      db2.teams.find? (fun t => t.name == "Mumbai Indians (MI)") =
        some { sampleTeam with budget := sampleTeam.budget - 15000000 } ∧
      db2.players.find? (fun pl => pl.id == 1) =
        some { samplePlayer with
                status := "Sold"
                team_id := some sampleTeam.id
                price := some 15000000 } ∧
      msgs = [(samplePlayer.name ++ " sold to " ++ sampleTeam.name ++ " for " ++
        format_inr_num 15000000, "success")]) :=
  ⟨rfl, rfl, rfl, by decide, sell_success_post rfl rfl rfl (by decide)⟩

/-- C4: a sell request that fails one of the three guards (player not
`Available`, team name not found, insufficient budget) commits no change
to any player row or team budget and flashes a human-readable `danger`
message. -/
theorem sell_failure_unchanged {db : DB} {pid : ℕ} {n : String} {p : ℚ} {player : Player}
    (hpl : db.players.find? (fun pl => pl.id == pid) = some player)
    (hfail : player.status ≠ "Available"
      ∨ db.teams.find? (fun t => t.name == n) = none
      ∨ ∃ team, db.teams.find? (fun t => t.name == n) = some team ∧ team.budget < p) :
    ∃ msg, sell_player db pid n p = HResp.ok db [(msg, "danger")] := by
  by_cases hst : player.status = "Available"
  · rcases hfail with h | h | ⟨team, hteam, hlt⟩
    · exact absurd hst h
    · exact ⟨"Invalid team selected.", by simp [sell_player, hpl, hst, h]⟩
    · exact ⟨"Not enough budget.", by simp [sell_player, hpl, hst, hteam, hlt]⟩
  · have hbne : (player.status != "Available") = true := by
      simpa [bne_iff_ne] using hst
    exact ⟨"Player already processed.", by simp [sell_player, hpl, hbne]⟩

theorem sell_failure_unchanged_check :
    soldDB.players.find? (fun pl => pl.id == 1) = some soldPlayer ∧
    soldPlayer.status ≠ "Available" ∧
    (∃ msg, sell_player soldDB 1 "Mumbai Indians (MI)" 5 = HResp.ok soldDB [(msg, "danger")]) :=
  ⟨rfl, by decide, sell_failure_unchanged rfl (Or.inl (by decide))⟩

/-- C6: marking any existing player unsold sets its status to `Unsold`
(whatever the current status was) and changes no team budget. -/
theorem unsold_any_status {db : DB} {pid : ℕ} {player : Player}
    (hpl : db.players.find? (fun pl => pl.id == pid) = some player) :
    ∃ db2, unsold_player db pid =
        HResp.ok db2 [(player.name ++ " marked as Unsold.", "warning")] ∧
      db2.teams = db.teams ∧
      db2.players.find? (fun pl => pl.id == pid) =
        some { player with status := "Unsold" } := by
  refine ⟨{ teams := db.teams
            players := updFirst (fun pl => pl.id == pid)
              (fun pl => { pl with status := "Unsold" }) db.players }, ?_, rfl, ?_⟩
  · simp only [unsold_player, hpl]
  · exact find?_updFirst hpl (by simpa using List.find?_some hpl)

theorem unsold_any_status_check :
    soldDB.players.find? (fun pl => pl.id == 1) = some soldPlayer ∧
    (∃ db2, unsold_player soldDB 1 =
        HResp.ok db2 [(soldPlayer.name ++ " marked as Unsold.", "warning")] ∧
      db2.teams = soldDB.teams ∧
      db2.players.find? (fun pl => pl.id == 1) =
        some { soldPlayer with status := "Unsold" }) :=
  ⟨rfl, unsold_any_status rfl⟩

/-- C10: undo on a player recorded as `Sold` whose `team_id` column is
unset commits no change at all (status and price are kept) and flashes
the `warning` that the player is already available. -/
theorem undo_sold_without_team_noop {db : DB} {pid : ℕ} {player : Player}
    (hpl : db.players.find? (fun pl => pl.id == pid) = some player)
    (hst : player.status = "Sold")
    (htid : player.team_id = none) :
    undo_player db pid = HResp.ok db [("Player is already Available.", "warning")] := by
  simp [undo_player, hpl, hst, htid, truthy]

theorem undo_sold_without_team_noop_check :
    soldNoTeamDB.players.find? (fun pl => pl.id == 1) = some soldNoTeamPlayer ∧
    soldNoTeamPlayer.status = "Sold" ∧
    soldNoTeamPlayer.team_id = none ∧
    undo_player soldNoTeamDB 1 =
      HResp.ok soldNoTeamDB [("Player is already Available.", "warning")] :=
  ⟨rfl, rfl, rfl, undo_sold_without_team_noop rfl rfl rfl⟩

/-- C7: undo on a `Sold` player whose recorded team row is missing skips
the refund silently (no team budget changes, no message is flashed) and
still resets the player to `Available` with no team reference and no
price. -/
theorem undo_dangling_team {db : DB} {pid : ℕ} {player : Player} {tid : ℕ}
    (hpl : db.players.find? (fun pl => pl.id == pid) = some player)
    (hst : player.status = "Sold")
    (htid : player.team_id = some tid)
    (h0 : tid ≠ 0)
    (hmiss : db.teams.find? (fun t => t.id == tid) = none) :
    ∃ db2, undo_player db pid = HResp.ok db2 [] ∧
      db2.teams = db.teams ∧
      db2.players.find? (fun pl => pl.id == pid) =
        some { player with
                status := "Available"
                team_id := none
                price := none } := by
  refine ⟨{ teams := db.teams
            players := updFirst (fun pl => pl.id == pid)
              (fun pl => { pl with
                            status := "Available"
                            team_id := none
                            price := none }) db.players }, ?_, rfl, ?_⟩
  · simp [undo_player, hpl, hst, htid, truthy, h0, hmiss]
  · exact find?_updFirst hpl (by simpa using List.find?_some hpl)

theorem undo_dangling_team_check :
    danglingDB.players.find? (fun pl => pl.id == 1) = some danglingPlayer ∧
    danglingPlayer.status = "Sold" ∧
    danglingPlayer.team_id = some 7 ∧
    danglingDB.teams.find? (fun t => t.id == 7) = none ∧
    (∃ db2, undo_player danglingDB 1 = HResp.ok db2 [] ∧
      db2.teams = danglingDB.teams ∧
      db2.players.find? (fun pl => pl.id == 1) =
        some { danglingPlayer with
                status := "Available"
                team_id := none
                price := none }) :=
  ⟨rfl, rfl, rfl, rfl, undo_dangling_team rfl rfl rfl (by decide) rfl⟩

/-- C5: delete always removes the player row; when the player is `Sold`
(with its team reference set and that team present) the owning team is
first refunded the price of the player, and when the player is `Available` or
`Unsold` no team budget changes. -/
theorem delete_refund_or_plain {db : DB} {pid : ℕ} {player : Player}
    (hpl : db.players.find? (fun pl => pl.id == pid) = some player) :
    (∀ tid pr T₁ team T₂,
        player.status = "Sold" → player.team_id = some tid → tid ≠ 0 →
        player.price = some pr →
        db.teams = T₁ ++ team :: T₂ → team.id = tid → (∀ t ∈ T₁, t.id ≠ tid) →
        ∃ msgs, delete_player db pid = HResp.ok
          { teams := T₁ ++ { team with budget := team.budget + pr } :: T₂
            players := db.players.eraseP (fun pl => pl.id == pid) } msgs) ∧
    ((player.status = "Available" ∨ player.status = "Unsold") →
        ∃ msgs, delete_player db pid = HResp.ok
          { teams := db.teams
            players := db.players.eraseP (fun pl => pl.id == pid) } msgs) := by
  constructor
  · intro tid pr T₁ team T₂ hst htid h0 hpr hteams hid hno
    have hfind : db.teams.find? (fun t => t.id == tid) = some team := by
      rw [hteams]
      exact find?_append_of_forall team T₂ (fun x hx => by simp [hno x hx]) (by simp [hid])
    refine ⟨[("Refunded " ++ format_inr_num pr ++ " to " ++ team.name ++
        " for removing " ++ player.name ++ ".", "info"),
      ("Player " ++ player.name ++ " has been removed from the auction pool.",
        "success")], ?_⟩
    simp [delete_player, hpl, hst, htid, truthy, h0, hpr, hfind]
    rw [hteams, updFirst_append_of_forall _ team T₂ (fun x hx => by simp [hno x hx])
      (by simp [hid])]
  · intro hst
    have hsb : (player.status == "Sold") = false := by
      rcases hst with h | h <;> simp [h]
    refine ⟨[("Player " ++ player.name ++ " has been removed from the auction pool.",
      "success")], ?_⟩
    simp [delete_player, hpl, hsb]

theorem delete_refund_or_plain_check :
    soldDB.players.find? (fun pl => pl.id == 1) = some soldPlayer ∧
    soldPlayer.status = "Sold" ∧
    soldPlayer.team_id = some 1 ∧
    soldPlayer.price = some 15000000 ∧
    (∃ msgs, delete_player soldDB 1 = HResp.ok
      { teams := [{ soldTeam with budget := soldTeam.budget + 15000000 }]
        players := soldDB.players.eraseP (fun pl => pl.id == 1) } msgs) ∧
    samplePlayer.status = "Available" ∧
    (∃ msgs, delete_player sampleDB 1 = HResp.ok
      { teams := sampleDB.teams
        players := sampleDB.players.eraseP (fun pl => pl.id == 1) } msgs) :=
  ⟨rfl, rfl, rfl, rfl,
    (@delete_refund_or_plain soldDB 1 soldPlayer rfl).1
      1 15000000 [] soldTeam [] rfl rfl (by decide) rfl rfl rfl (by simp),
    rfl,
    (@delete_refund_or_plain sampleDB 1 samplePlayer rfl).2
      (Or.inl rfl)⟩

/-- C2: selling an `Available` player to an existing team with
sufficient budget and then undoing that sale restores every team row
(hence every budget) exactly, and leaves the player `Available` with no
team reference and no price.  Primary keys are unique and positive, as
the database layer guarantees. -/
theorem sell_then_undo_roundtrip {db : DB} {pid : ℕ} {n : String} {p : ℚ}
    {player : Player} {team : Team}
    (hpl : db.players.find? (fun pl => pl.id == pid) = some player)
    (hst : player.status = "Available")
    (htm : db.teams.find? (fun t => t.name == n) = some team)
    (hb : p ≤ team.budget)
    (hid0 : team.id ≠ 0)
    (hnd : (db.teams.map Team.id).Nodup) :
    ∃ db1 m1 db2 m2,
      sell_player db pid n p = HResp.ok db1 m1 ∧
      undo_player db1 pid = HResp.ok db2 m2 ∧
      db2.teams = db.teams ∧
      db2.players.find? (fun pl => pl.id == pid) =
        some { player with
                status := "Available"
                team_id := none
                price := none } := by
  obtain ⟨teams, players⟩ := db
  obtain ⟨T₁, T₂, hTeq, hTno, hTpred⟩ := find?_split htm
  obtain ⟨P₁, P₂, hPeq, hPno, hPpred⟩ := find?_split hpl
  dsimp only at hTeq hPeq
  subst hTeq
  subst hPeq
  have hT1ne : ∀ t ∈ T₁, (t.id == team.id) = false := by
    rw [List.map_append, List.map_cons, List.nodup_append] at hnd
    obtain ⟨-, -, hdisj⟩ := hnd
    intro t ht
    have hne : t.id ≠ team.id := fun heq => hdisj (List.mem_map_of_mem _ ht) (by simp [heq])
    simp [hne]
  refine ⟨⟨T₁ ++ ({ team with budget := team.budget - p }) :: T₂,
           P₁ ++ ({ player with
                     status := "Sold"
                     team_id := some team.id
                     price := some p }) :: P₂⟩,
          [(player.name ++ " sold to " ++ team.name ++ " for " ++ format_inr_num p,
            "success")],
          ⟨T₁ ++ team :: T₂,
           P₁ ++ ({ player with
                     status := "Available"
                     team_id := none
                     price := none }) :: P₂⟩,
          [("Undid sale of " ++ player.name ++ ". " ++ format_inr_num p ++
            " refunded to " ++ team.name ++ ".", "info")],
          ?_, ?_, rfl, ?_⟩
  · rw [sell_success_aux hpl hst htm (not_lt.mpr hb)]
    rw [updFirst_append_of_forall _ team T₂ hTno hTpred,
      updFirst_append_of_forall _ player P₂ hPno hPpred]
  · have hfound : (P₁ ++ ({ player with
          status := "Sold"
          team_id := some team.id
          price := some p }) :: P₂).find? (fun pl => pl.id == pid) =
        some ({ player with
                 status := "Sold"
                 team_id := some team.id
                 price := some p }) :=
      find?_append_of_forall _ P₂ hPno hPpred
    have hfteam : (T₁ ++ ({ team with budget := team.budget - p }) :: T₂).find?
          (fun t => t.id == team.id) = some ({ team with budget := team.budget - p }) :=
      find?_append_of_forall _ T₂ hT1ne (by simp)
    have hrefund : updFirst (fun t => t.id == team.id)
          (fun t => { t with budget := t.budget + p })
          (T₁ ++ ({ team with budget := team.budget - p }) :: T₂) =
        T₁ ++ ({ team with budget := team.budget - p + p }) :: T₂ :=
      updFirst_append_of_forall _ _ T₂ hT1ne (by simp)
    have hreset : updFirst (fun pl => pl.id == pid)
          (fun pl => { pl with
                        status := "Available"
                        team_id := none
                        price := none })
          (P₁ ++ ({ player with
                     status := "Sold"
                     team_id := some team.id
                     price := some p }) :: P₂) =
        P₁ ++ ({ player with
                  status := "Available"
                  team_id := none
                  price := none }) :: P₂ :=
      updFirst_append_of_forall _ _ P₂ hPno hPpred
    simp only [undo_player, hfound, truthy, Option.getD_some, hfteam, hrefund, hreset]
    simp [hid0, sub_add_cancel]
  · exact find?_append_of_forall _ P₂ hPno hPpred

theorem sell_then_undo_roundtrip_check :
    sampleDB.players.find? (fun pl => pl.id == 1) = some samplePlayer ∧
    samplePlayer.status = "Available" ∧
    sampleDB.teams.find? (fun t => t.name == "Mumbai Indians (MI)") = some sampleTeam ∧
    (15000000 : ℚ) ≤ sampleTeam.budget ∧
    sampleTeam.id ≠ 0 ∧
    (sampleDB.teams.map Team.id).Nodup ∧
    (∃ db1 m1 db2 m2,
      sell_player sampleDB 1 "Mumbai Indians (MI)" 15000000 = HResp.ok db1 m1 ∧
      undo_player db1 1 = HResp.ok db2 m2 ∧
      db2.teams = sampleDB.teams ∧
      db2.players.find? (fun pl => pl.id == 1) =
        some { samplePlayer with
                status := "Available"
                team_id := none
                price := none }) :=
  ⟨rfl, rfl, rfl, by decide, by decide, by simp [sampleDB, sampleTeam],
    sell_then_undo_roundtrip rfl rfl rfl (by decide) (by decide)
      (by simp [sampleDB, sampleTeam])⟩

theorem sell_player_players {db : DB} {pid : ℕ} {n : String} {p : ℚ} {db2 : DB}
    {m : List (String × String)} (h : sell_player db pid n p = HResp.ok db2 m) :
    db2.players = db.players ∨
    ∃ tid, db2.players = updFirst (fun pl => pl.id == pid)
      (fun pl => { pl with
                    status := "Sold"
                    team_id := some tid
                    price := some p }) db.players := by
  simp only [sell_player] at h
  split at h
  · exact HResp.noConfusion h
  · split at h
    · injection h with h1 h2
      exact Or.inl (by rw [← h1])
    · split at h
      · injection h with h1 h2
        exact Or.inl (by rw [← h1])
      · split at h
        · injection h with h1 h2
          exact Or.inl (by rw [← h1])
        · injection h with h1 h2
          rename_i team _ _
          exact Or.inr ⟨team.id, by rw [← h1]⟩

theorem undo_player_players {db : DB} {pid : ℕ} {db2 : DB}
    {m : List (String × String)} (h : undo_player db pid = HResp.ok db2 m) :
    db2.players = db.players ∨
    db2.players = updFirst (fun pl => pl.id == pid)
      (fun pl => { pl with
                    status := "Available"
                    team_id := none
                    price := none }) db.players := by
  simp only [undo_player] at h
  split at h
  · exact HResp.noConfusion h
  · split at h
    · split at h
      · split at h
        · exact HResp.noConfusion h
        · injection h with h1 h2
          exact Or.inr (by rw [← h1])
      · injection h with h1 h2
        exact Or.inr (by rw [← h1])
    · split at h
      · injection h with h1 h2
        exact Or.inr (by rw [← h1])
      · injection h with h1 h2
        exact Or.inl (by rw [← h1])

theorem delete_player_players {db : DB} {pid : ℕ} {db2 : DB}
    {m : List (String × String)} (h : delete_player db pid = HResp.ok db2 m) :
    db2.players = db.players.eraseP (fun pl => pl.id == pid) := by
  simp only [delete_player] at h
  split at h
  · exact HResp.noConfusion h
  · split at h
    · split at h
      · split at h
        · exact HResp.noConfusion h
        · injection h with h1 h2
          rw [← h1]
      · injection h with h1 h2
        rw [← h1]
    · injection h with h1 h2
      rw [← h1]

/-- C3 (amended): on invariant-satisfying states, the sell, undo and
delete operations preserve the invariant that the team reference of a remaining
reference is set exactly when its status is `Sold`; the mark-unsold
operation, however, does not preserve it (it leaves the team reference
of a `Sold` player set while changing the status, see the
counterexample). -/
theorem inv_preserved_sell_undo_delete (db : DB) (hinv : statusTeamInv db = true) :
    (∀ pid n p db2 m, sell_player db pid n p = HResp.ok db2 m →
      statusTeamInv db2 = true) ∧
    (∀ pid db2 m, undo_player db pid = HResp.ok db2 m →
      statusTeamInv db2 = true) ∧
    (∀ pid db2 m, delete_player db pid = HResp.ok db2 m →
      statusTeamInv db2 = true) := by
  have hin : ∀ pl ∈ db.players, (pl.team_id.isSome == (pl.status == "Sold")) = true :=
    List.all_eq_true.mp hinv
  refine ⟨?_, ?_, ?_⟩
  · intro pid n p db2 m h
    rcases sell_player_players h with he | ⟨tid, he⟩
    · simp only [statusTeamInv, he]
      exact hinv
    · simp only [statusTeamInv, he]
      rw [List.all_eq_true]
      intro x hx
      rcases mem_updFirst hx with hmem | ⟨y, hy, hpy, rfl⟩
      · exact hin x hmem
      · rfl
  · intro pid db2 m h
    rcases undo_player_players h with he | he
    · simp only [statusTeamInv, he]
      exact hinv
    · simp only [statusTeamInv, he]
      rw [List.all_eq_true]
      intro x hx
      rcases mem_updFirst hx with hmem | ⟨y, hy, hpy, rfl⟩
      · exact hin x hmem
      · rfl
  · intro pid db2 m h
    rw [statusTeamInv, delete_player_players h, List.all_eq_true]
    intro x hx
    exact hin x (List.mem_of_mem_eraseP hx)

theorem inv_preserved_sell_undo_delete_check :
    statusTeamInv sampleDB = true ∧ statusTeamInv soldDB = true :=
  ⟨rfl,
    (inv_preserved_sell_undo_delete sampleDB rfl).1 1 "Mumbai Indians (MI)" 15000000
      soldDB
      [(samplePlayer.name ++ " sold to " ++ sampleTeam.name ++ " for " ++
        format_inr_num 15000000, "success")] rfl⟩

/-- C3 counterexample: `soldDB` is reachable (it is the result of a sell
from the invariant-satisfying `sampleDB`) and satisfies the invariant,
yet marking its sold player unsold yields a state in which the team
reference of the player is still set while its status is `Unsold` — the claimed
invariant fails after a mark-unsold operation. -/
theorem unsold_on_sold_breaks_inv :
    statusTeamInv sampleDB = true ∧
    (∃ m, sell_player sampleDB 1 "Mumbai Indians (MI)" 15000000 = HResp.ok soldDB m) ∧
    statusTeamInv soldDB = true ∧
    (∃ db2 m, unsold_player soldDB 1 = HResp.ok db2 m ∧ statusTeamInv db2 = false) :=
  ⟨rfl, ⟨_, rfl⟩, rfl, ⟨_, _, rfl, rfl⟩⟩

/-- C8 counterexample: a sell request with the non-positive price -100
on an available player is not rejected: the sale is performed, the
player becomes `Sold` at price -100 and the team budget changes (it
grows by 100), so state is not left unchanged. -/
theorem sell_accepts_nonpositive_price :
    (-100 : ℚ) ≤ 0 ∧
    (∃ db2 m, sell_player sampleDB 1 "Mumbai Indians (MI)" (-100) = HResp.ok db2 m ∧
      db2.players.find? (fun pl => pl.id == 1) =
        some { samplePlayer with
                status := "Sold"
                team_id := some 1
                price := some (-100) } ∧
      db2.teams ≠ sampleDB.teams) :=
  ⟨by decide, ⟨_, _, rfl, by decide, by decide⟩⟩

/-- C8 (amended): the sell operation applies no positivity or range
check to the parsed price: a sell request whose price is zero or
negative is processed by exactly the same guards as any other, and when
the player is `Available`, the team exists and `team.budget ≥ price`,
the sale is performed with the usual effects (the team budget increases
when the price is negative). -/
theorem sell_nonpositive_price_processed {db : DB} {pid : ℕ} {n : String} {p : ℚ}
    {player : Player} {team : Team}
    (_hp : p ≤ 0)
    (hpl : db.players.find? (fun pl => pl.id == pid) = some player)
    (hst : player.status = "Available")
    (htm : db.teams.find? (fun t => t.name == n) = some team)
    (hb : p ≤ team.budget) :
    ∃ db2 msgs, sell_player db pid n p = HResp.ok db2 msgs ∧
      db2.teams.find? (fun t => t.name == n) =
        some { team with budget := team.budget - p } ∧
      db2.players.find? (fun pl => pl.id == pid) =
        some { player with
                status := "Sold"
                team_id := some team.id
                price := some p } := by
  refine ⟨_, _, sell_success_aux hpl hst htm (not_lt.mpr hb), ?_, ?_⟩
  · exact find?_updFirst htm (by simpa using List.find?_some htm)
  · exact find?_updFirst hpl (by simpa using List.find?_some hpl)

theorem sell_nonpositive_price_processed_check :
    (-100 : ℚ) ≤ 0 ∧
    sampleDB.players.find? (fun pl => pl.id == 1) = some samplePlayer ∧
    samplePlayer.status = "Available" ∧
    sampleDB.teams.find? (fun t => t.name == "Mumbai Indians (MI)") = some sampleTeam ∧
    (-100 : ℚ) ≤ sampleTeam.budget ∧
    (∃ db2 msgs, sell_player sampleDB 1 "Mumbai Indians (MI)" (-100) = HResp.ok db2 msgs ∧
      db2.teams.find? (fun t => t.name == "Mumbai Indians (MI)") =
        some { sampleTeam with budget := sampleTeam.budget - (-100) } ∧
      db2.players.find? (fun pl => pl.id == 1) =
        some { samplePlayer with
                status := "Sold"
                team_id := some sampleTeam.id
                price := some (-100) }) :=
  ⟨by decide, rfl, rfl, rfl, by decide,
    sell_nonpositive_price_processed (by decide) rfl rfl rfl (by decide)⟩

/-- C9: the currency formatter is a pure function on the parsed value
with three magnitude bands — at least 10,000,000 renders crores with two
decimal places, otherwise at least 100,000 renders lakhs with two
decimal places, otherwise an Indian-style digit-grouped rendering of the
integer part — with format(25000000) = "INR 2.50 Cr",
format(150000) = "INR 1.50 L" and format(5000) = "INR 5,000", and any
value that `float(...)` cannot convert is returned unchanged. -/
theorem format_inr_spec :
    (∀ v : ℚ, 10000000 ≤ v →
      format_inr (PyVal.num v) = PyVal.str ("INR " ++ fmt2 (v / 10000000) ++ " Cr")) ∧
    (∀ v : ℚ, ¬ 10000000 ≤ v → 100000 ≤ v →
      format_inr (PyVal.num v) = PyVal.str ("INR " ++ fmt2 (v / 100000) ++ " L")) ∧
    (∀ v : ℚ, ¬ 10000000 ≤ v → ¬ 100000 ≤ v →
      format_inr (PyVal.num v) = PyVal.str ("INR " ++ pyGroup (intPartStr v).data)) ∧
    format_inr (PyVal.num 25000000) = PyVal.str "INR 2.50 Cr" ∧
    format_inr (PyVal.num 150000) = PyVal.str "INR 1.50 L" ∧
    format_inr (PyVal.num 5000) = PyVal.str "INR 5,000" ∧
    (∀ s, format_inr (PyVal.str s) = PyVal.str s) := by
  refine ⟨?_, ?_, ?_, ?_, ?_, ?_, fun s => rfl⟩
  · intro v hv
    simp [format_inr, format_inr_num, hv]
  · intro v hv1 hv2
    simp [format_inr, format_inr_num, hv1, hv2]
  · intro v hv1 hv2
    simp [format_inr, format_inr_num, hv1, hv2]
  · decide
  · decide
  · decide

theorem format_inr_spec_check :
    (10000000 : ℚ) ≤ 25000000 ∧
    format_inr (PyVal.num 25000000) = PyVal.str ("INR " ++ fmt2 (25000000 / 10000000) ++ " Cr") ∧
    format_inr (PyVal.num 25000000) = PyVal.str "INR 2.50 Cr" :=
  ⟨by decide, format_inr_spec.1 25000000 (by decide), format_inr_spec.2.2.2.1⟩

end AuctionApp
